import Mathlib

/-!
Shallow embedding of `src/dotprod/src/dotprod_crcf.avx512f.c` from liquid-dsp:
the AVX512-F real-coefficient / complex-sample dot product module.

Modelling conventions:
* `float` values are modelled as exact rationals `ℚ`; `liquid_float_complex`
  as a pair `ℚ × ℚ` (real, imaginary).  All equalities are over exact
  arithmetic, matching the spec's "within floating-point tolerance" read.
* Caller-owned C arrays (`float *`, `liquid_float_complex *`) are total
  functions `ℕ → ℚ` (resp. `ℕ → ℚ × ℚ`); the code only reads them at
  in-bounds indices.
* The object-owned coefficient buffer `q->h` (allocated with `_mm_malloc`
  and written by the create loop) is a `List ℚ`, built element-by-element in
  the order the C loop writes it; reads go through `List.getD` (default `0`,
  never reached at in-bounds indices).
* The SIMD register `__m512` (16 float lanes) appears as a lane-indexed
  accumulator `ℕ → ℚ`; `_mm512_mask_reduce_add_ps` with masks `0x5555` /
  `0xAAAA` sums the 8 even / 8 odd lanes.
* Functions that return a `LIQUID_OK` status and write `*_y` return the pair
  `(status, y)`.
-/

/-- Status code `LIQUID_OK` (success) returned by the run/execute functions. -/
def LIQUID_OK : Int := 0

/-- The object record `struct dotprod_crcf_s`: length `n` and the owned,
duplicated coefficient buffer `h` (in the C code, `2n` floats). -/
structure dotprod_crcf_s where
  n : ℕ
  h : List ℚ
deriving Repr, DecidableEq

/-- Scalar reference `dotprod_crcf_run` (the portable non-MSVC branch):
`r` starts at `0 + 0i` and the loop body is `r += _h[i] * _x[i]`, a real
coefficient times a complex sample, accumulated sequentially for
`i = 0, …, n-1`; the result is written to `*_y` and `LIQUID_OK` returned. -/
def dotprod_crcf_run (h : ℕ → ℚ) (x : ℕ → ℚ × ℚ) (n : ℕ) : Int × (ℚ × ℚ) :=
  (LIQUID_OK,
    (List.range n).foldl
      (fun r i => (r.1 + h i * (x i).1, r.2 + h i * (x i).2)) (0, 0))

/-- Scalar reference `dotprod_crcf_run`, the `_MSC_VER` branch: the loop body
is the plain assignment `r = _FCmulcr(_x[i], _h[i])` (complex `x[i]` times
real `h[i]`), overwriting `r` each iteration instead of accumulating. -/
def dotprod_crcf_run_msvc (h : ℕ → ℚ) (x : ℕ → ℚ × ℚ) (n : ℕ) : Int × (ℚ × ℚ) :=
  (LIQUID_OK,
    (List.range n).foldl
      (fun _ i => ((x i).1 * h i, (x i).2 * h i)) (0, 0))

/-- Main loop of `dotprod_crcf_run4`: `b` iterations of the unrolled body
`for (i=0; i<t; i+=4) { r += h[i]*x[i]; r += h[i+1]*x[i+1]; r += h[i+2]*x[i+2];
r += h[i+3]*x[i+3]; }`, iteration `b` working at base index `i = 4*b`. -/
def run4Blocks (h : ℕ → ℚ) (x : ℕ → ℚ × ℚ) : ℕ → ℚ × ℚ
  | 0 => (0, 0)
  | b + 1 =>
    let r := run4Blocks h x b
    let i := 4 * b
    (r.1 + h i * (x i).1 + h (i+1) * (x (i+1)).1
         + h (i+2) * (x (i+2)).1 + h (i+3) * (x (i+3)).1,
     r.2 + h i * (x i).2 + h (i+1) * (x (i+1)).2
         + h (i+2) * (x (i+2)).2 + h (i+3) * (x (i+3)).2)

/-- Cleanup loop of `dotprod_crcf_run4`: `for ( ; i<n; i++) r += h[i]*x[i];`
starting at index `i`, running `s` iterations. -/
def runTail (h : ℕ → ℚ) (x : ℕ → ℚ × ℚ) : ℕ → ℕ → ℚ × ℚ → ℚ × ℚ
  | _, 0, r => r
  | i, s + 1, r => runTail h x (i + 1) s (r.1 + h i * (x i).1, r.2 + h i * (x i).2)

/-- `dotprod_crcf_run4`: unrolled-by-4 scalar dot product.  `t = (n>>2)<<2`
terms are handled in groups of four (`t/4` iterations of the unrolled loop),
the remaining `n - t` terms one at a time. -/
def dotprod_crcf_run4 (h : ℕ → ℚ) (x : ℕ → ℚ × ℚ) (n : ℕ) : Int × (ℚ × ℚ) :=
  let t := (n >>> 2) <<< 2
  (LIQUID_OK, runTail h x t (n - t) (run4Blocks h x (t / 4)))

/-- The create loop of `dotprod_crcf_create_opt`: for `i = 0, …, n-1` it
writes `c i` into `buffer[2i]` and `buffer[2i+1]` (`c i = _h[k]` with
`k = _rev ? n-i-1 : i`); writes are in increasing address order, so the
buffer is the left-to-right concatenation of the pairs `[c i, c i]`. -/
def coefBuild (c : ℕ → ℚ) : ℕ → List ℚ
  | 0 => []
  | n + 1 => coefBuild c n ++ [c n, c n]

/-- `dotprod_crcf_create_opt`: allocates the record, sets `q->n = _n`, and
fills the 64-byte-aligned buffer of `2n` floats with each coefficient
repeated twice, reading `_h[k]` with `k = _rev ? q->n - i - 1 : i`. -/
def dotprod_crcf_create_opt (h : ℕ → ℚ) (n : ℕ) (rev : Bool) : dotprod_crcf_s :=
  ⟨n, coefBuild (fun i => h (if rev then n - i - 1 else i)) n⟩

/-- `dotprod_crcf_create`: forward creation (`_rev = 0`). -/
def dotprod_crcf_create (h : ℕ → ℚ) (n : ℕ) : dotprod_crcf_s :=
  dotprod_crcf_create_opt h n false

/-- `dotprod_crcf_create_rev`: reversed creation (`_rev = 1`). -/
def dotprod_crcf_create_rev (h : ℕ → ℚ) (n : ℕ) : dotprod_crcf_s :=
  dotprod_crcf_create_opt h n true

/-- `dotprod_crcf_recreate`: completely destroys the old object and creates a
fresh one from `_h`/`_n` (forward). -/
def dotprod_crcf_recreate (_q : dotprod_crcf_s) (h : ℕ → ℚ) (n : ℕ) : dotprod_crcf_s :=
  dotprod_crcf_create h n

/-- `dotprod_crcf_recreate_rev`: destroy-then-create, reversed coefficients. -/
def dotprod_crcf_recreate_rev (_q : dotprod_crcf_s) (h : ℕ → ℚ) (n : ℕ) : dotprod_crcf_s :=
  dotprod_crcf_create_rev h n

/-- The object produced by the success path of `dotprod_crcf_copy`: same `n`,
and a fresh buffer into which `memmove` copies exactly `2*q_orig->n` floats
from the source buffer. -/
def dotprod_crcf_copy_obj (q : dotprod_crcf_s) : dotprod_crcf_s :=
  ⟨q.n, q.h.take (2 * q.n)⟩

/-- `dotprod_crcf_copy`: a NULL handle (modelled as `none`) fails through
`liquid_error_config`; otherwise a fresh record and buffer are allocated and
the `2n` coefficients are copied over. -/
def dotprod_crcf_copy : Option dotprod_crcf_s → Except String dotprod_crcf_s
  | none => .error "dotprod_crcf_copy().avx512f, object cannot be NULL"
  | some q => .ok (dotprod_crcf_copy_obj q)

/-- Outcome of running `dotprod_crcf_create_opt` when allocation results are
made explicit: either the created object, or a store through a null pointer
(undefined behavior / crash), or an error value propagated to the caller
(what `liquid_error_config` would produce — the C code never takes this
branch in `create_opt`, it exists so the spec's claim is statable). -/
inductive CreateOutcome where
  | ok (q : dotprod_crcf_s)
  | nullDeref
  | allocError (msg : String)
deriving Repr, DecidableEq

/-- Whether a `CreateOutcome` is a propagated error value. -/
def CreateOutcome.isAllocError : CreateOutcome → Bool
  | .allocError _ => true
  | _ => false

/-- `dotprod_crcf_create_opt` with the two allocation results (`malloc` of the
record, `_mm_malloc` of the buffer) made explicit, exactly as the C code
handles them: there is no check after either call.  If `malloc` fails the
very next statement `q->n = _n` stores through the null record pointer; if
`_mm_malloc` fails and `n > 0` the first loop iteration stores through the
null buffer pointer; with `n = 0` a null (empty) buffer is stored and the
object is returned. -/
def dotprod_crcf_create_opt_alloc (objAlloc bufAlloc : Bool) (h : ℕ → ℚ) (n : ℕ)
    (rev : Bool) : CreateOutcome :=
  if objAlloc = false then
    .nullDeref
  else if bufAlloc = false ∧ 0 < n then
    .nullDeref
  else
    .ok (dotprod_crcf_create_opt h n rev)

/-- The cast `float * x = (float*)_x;` viewing the complex sample array as a
flat float array: even indices hold real parts, odd indices imaginary
parts. -/
def xflat (x : ℕ → ℚ × ℚ) (j : ℕ) : ℚ :=
  if j % 2 = 0 then (x (j / 2)).1 else (x (j / 2)).2

/-- Read of the object's coefficient buffer at flat index `j`. -/
def bget (q : dotprod_crcf_s) (j : ℕ) : ℚ := q.h.getD j 0

/-- Accumulator register of `dotprod_crcf_execute_avx512f` after `b`
iterations of the blocked loop, per lane `l`: each iteration (base flat index
`i = 16*b`) loads 16 samples and 16 coefficients, multiplies lane-wise and
adds into `sum`. -/
def avxLanes (xf bh : ℕ → ℚ) : ℕ → ℕ → ℚ
  | 0, _ => 0
  | b + 1, l => avxLanes xf bh b l + xf (16*b + l) * bh (16*b + l)

/-- Accumulator register of `dotprod_crcf_execute_avx512f4` after `b`
iterations, per lane `l`: each iteration (loop counter `i = 16*b`, base flat
index `4*i = 64*b`) issues four 16-wide load/multiply pairs `s0..s3` and adds
all four into the single `sum` register. -/
def avx4Lanes (xf bh : ℕ → ℚ) : ℕ → ℕ → ℚ
  | 0, _ => 0
  | b + 1, l =>
    avx4Lanes xf bh b l
      + xf (64*b + l) * bh (64*b + l)
      + xf (64*b + 16 + l) * bh (64*b + 16 + l)
      + xf (64*b + 32 + l) * bh (64*b + 32 + l)
      + xf (64*b + 48 + l) * bh (64*b + 48 + l)

/-- `_mm512_mask_reduce_add_ps(0x5555, sum)`: sum of the 8 even lanes. -/
def maskReduce5555 (s : ℕ → ℚ) : ℚ := ∑ l ∈ Finset.range 8, s (2 * l)

/-- `_mm512_mask_reduce_add_ps(0xAAAA, sum)`: sum of the 8 odd lanes. -/
def maskReduceAAAA (s : ℕ → ℚ) : ℚ := ∑ l ∈ Finset.range 8, s (2 * l + 1)

/-- The scalar cleanup loop shared by both kernels:
`for (; i<n; i+=2) { w[0] += x[i]*h[i]; w[1] += x[i+1]*h[i+1]; }`,
starting at flat index `i`, running `s` iterations. -/
def cleanupLoop (xf bh : ℕ → ℚ) : ℕ → ℕ → ℚ × ℚ → ℚ × ℚ
  | _, 0, w => w
  | i, s + 1, w =>
    cleanupLoop xf bh (i + 2) s
      (w.1 + xf i * bh i, w.2 + xf (i + 1) * bh (i + 1))

/-- Narrow kernel `dotprod_crcf_execute_avx512f`: flat length `n = 2*q->n`,
blocked over `t = (n>>4)<<4` elements in 16-lane steps with one accumulator,
masked horizontal reduction into `w[0]`/`w[1]`, scalar cleanup of the
remaining `n - t` elements (an even count), result `w[0] + i*w[1]`. -/
def dotprod_crcf_execute_avx512f (q : dotprod_crcf_s) (x : ℕ → ℚ × ℚ) :
    Int × (ℚ × ℚ) :=
  let xf := xflat x
  let bh := bget q
  let n2 := 2 * q.n
  let t := (n2 >>> 4) <<< 4
  let sum := avxLanes xf bh (t / 16)
  let w0 := maskReduce5555 sum
  let w1 := maskReduceAAAA sum
  (LIQUID_OK, cleanupLoop xf bh t ((n2 - t) / 2) (w0, w1))

/-- Wide kernel `dotprod_crcf_execute_avx512f4`: flat length `n = 2*q->n`,
`r = (n>>6)<<4`, the unrolled loop runs `i = 0, 16, …` while `i < r`
(covering flat indices `[0, 4*r)` in 64-element groups), masked horizontal
reduction, scalar cleanup from flat index `4*r` to `n`. -/
def dotprod_crcf_execute_avx512f4 (q : dotprod_crcf_s) (x : ℕ → ℚ × ℚ) :
    Int × (ℚ × ℚ) :=
  let xf := xflat x
  let bh := bget q
  let n2 := 2 * q.n
  let r := (n2 >>> 6) <<< 4
  let sum := avx4Lanes xf bh (r / 16)
  let w0 := maskReduce5555 sum
  let w1 := maskReduceAAAA sum
  (LIQUID_OK, cleanupLoop xf bh (4 * r) ((n2 - 4 * r) / 2) (w0, w1))

/-- Dispatcher `dotprod_crcf_execute`: narrow kernel when `q->n < 128`, wide
four-way-unrolled kernel otherwise. -/
def dotprod_crcf_execute (q : dotprod_crcf_s) (x : ℕ → ℚ × ℚ) :
    Int × (ℚ × ℚ) :=
  if q.n < 128 then dotprod_crcf_execute_avx512f q x
  else dotprod_crcf_execute_avx512f4 q x

/-- Memory touched by an execute call: the object record and buffer, the
caller's sample array, and the output location `*_y`. -/
structure DotprodMem where
  q : dotprod_crcf_s
  x : ℕ → ℚ × ℚ
  y : ℚ × ℚ

/-- `dotprod_crcf_execute_avx512f` with its memory effects explicit.  In the
C body the only store to memory is `*_y = w[0] + _Complex_I*w[1]` (the
registers `v,h,s,sum` and the array `w[2]` are locals); `q` and `x` are only
loaded from. -/
def dotprod_crcf_execute_avx512f_mem (m : DotprodMem) : DotprodMem × Int :=
  let out := dotprod_crcf_execute_avx512f m.q m.x
  ({ m with y := out.2 }, out.1)

/-- `dotprod_crcf_execute_avx512f4` with its memory effects explicit; as in
the narrow kernel, the only store is the final write to `*_y`. -/
def dotprod_crcf_execute_avx512f4_mem (m : DotprodMem) : DotprodMem × Int :=
  let out := dotprod_crcf_execute_avx512f4 m.q m.x
  ({ m with y := out.2 }, out.1)

/-! ### Closed forms of the loops -/

/-- The accumulation loop of the scalar reference, in closed form. -/
theorem run_foldl_eq (h : ℕ → ℚ) (x : ℕ → ℚ × ℚ) (n : ℕ) :
    (List.range n).foldl
        (fun r i => (r.1 + h i * (x i).1, r.2 + h i * (x i).2)) (0, 0) =
      (∑ i ∈ Finset.range n, h i * (x i).1,
       ∑ i ∈ Finset.range n, h i * (x i).2) := by
  induction n with
  | zero => simp
  | succ n ih =>
    rw [List.range_succ, List.foldl_append, ih]
    simp [Finset.sum_range_succ]

/-- The scalar reference computes the componentwise finite sum. -/
theorem dotprod_crcf_run_eq (h : ℕ → ℚ) (x : ℕ → ℚ × ℚ) (n : ℕ) :
    dotprod_crcf_run h x n =
      (LIQUID_OK, (∑ i ∈ Finset.range n, h i * (x i).1,
                   ∑ i ∈ Finset.range n, h i * (x i).2)) := by
  unfold dotprod_crcf_run
  rw [run_foldl_eq]

theorem xflat_even (x : ℕ → ℚ × ℚ) (j : ℕ) : xflat x (2 * j) = (x j).1 := by
  simp [xflat, Nat.mul_mod_right, Nat.mul_div_cancel_left]

theorem xflat_odd (x : ℕ → ℚ × ℚ) (j : ℕ) : xflat x (2 * j + 1) = (x j).2 := by
  have h1 : (2 * j + 1) % 2 = 1 := by omega
  have h2 : (2 * j + 1) / 2 = j := by omega
  simp [xflat, h1, h2]

theorem coefBuild_length (c : ℕ → ℚ) (n : ℕ) : (coefBuild c n).length = 2 * n := by
  induction n with
  | zero => rfl
  | succ n ih => simp [coefBuild, ih]; omega

/-- Reading back the buffer built by the create loop: both halves of the
`k`-th duplicated pair hold `c k`. -/
theorem coefBuild_getD (c : ℕ → ℚ) (n k : ℕ) (hk : k < n) :
    (coefBuild c n).getD (2 * k) 0 = c k ∧
      (coefBuild c n).getD (2 * k + 1) 0 = c k := by
  induction n with
  | zero => omega
  | succ n ih =>
    rcases Nat.lt_or_ge k n with hlt | hge
    · have h1 : 2 * k < (coefBuild c n).length := by rw [coefBuild_length]; omega
      have h2 : 2 * k + 1 < (coefBuild c n).length := by rw [coefBuild_length]; omega
      rw [coefBuild, List.getD_append _ _ _ _ h1, List.getD_append _ _ _ _ h2]
      exact ih hlt
    · have hk' : k = n := by omega
      subst hk'
      have h1 : (coefBuild c k).length ≤ 2 * k := by rw [coefBuild_length]
      have h2 : (coefBuild c k).length ≤ 2 * k + 1 := by rw [coefBuild_length]; omega
      rw [coefBuild, List.getD_append_right _ _ _ _ h1,
        List.getD_append_right _ _ _ _ h2, coefBuild_length]
      simp

/-- One step of the narrow kernel accumulator, as an equation. -/
theorem avxLanes_succ (xf bh : ℕ → ℚ) (b l : ℕ) :
    avxLanes xf bh (b + 1) l = avxLanes xf bh b l + xf (16*b + l) * bh (16*b + l) := rfl

/-- The four-way unrolled accumulator visits exactly the flat indices of four
consecutive narrow-kernel iterations, in the same order, so after `b`
unrolled iterations it equals the narrow accumulator after `4*b`. -/
theorem avx4Lanes_eq_avxLanes (xf bh : ℕ → ℚ) (b l : ℕ) :
    avx4Lanes xf bh b l = avxLanes xf bh (4 * b) l := by
  induction b with
  | zero => rfl
  | succ b ih =>
    have e4 : 4 * (b + 1) = 4 * b + 1 + 1 + 1 + 1 := by ring
    rw [avx4Lanes, ih, e4, avxLanes_succ, avxLanes_succ, avxLanes_succ, avxLanes_succ]
    have e0 : 16 * (4 * b) + l = 64 * b + l := by ring
    have e1 : 16 * (4 * b + 1) + l = 64 * b + 16 + l := by ring
    have e2 : 16 * (4 * b + 1 + 1) + l = 64 * b + 32 + l := by ring
    have e3 : 16 * (4 * b + 1 + 1 + 1) + l = 64 * b + 48 + l := by ring
    rw [e0, e1, e2, e3]

/-- Horizontal masked reduction of the narrow accumulator over the even
lanes: the sum of all products at even flat indices below `16*b`. -/
theorem maskReduce5555_avxLanes (xf bh : ℕ → ℚ) (b : ℕ) :
    maskReduce5555 (avxLanes xf bh b) =
      ∑ j ∈ Finset.range (8 * b), xf (2 * j) * bh (2 * j) := by
  induction b with
  | zero => simp [maskReduce5555, avxLanes]
  | succ b ih =>
    have h8 : 8 * (b + 1) = 8 * b + 8 := by ring
    rw [h8, Finset.sum_range_add, ← ih]
    simp only [maskReduce5555, avxLanes_succ]
    rw [Finset.sum_add_distrib]
    congr 1
    apply Finset.sum_congr rfl
    intro l _
    have e : 2 * (8 * b + l) = 16 * b + 2 * l := by ring
    rw [e]

/-- Horizontal masked reduction of the narrow accumulator over the odd
lanes: the sum of all products at odd flat indices below `16*b`. -/
theorem maskReduceAAAA_avxLanes (xf bh : ℕ → ℚ) (b : ℕ) :
    maskReduceAAAA (avxLanes xf bh b) =
      ∑ j ∈ Finset.range (8 * b), xf (2 * j + 1) * bh (2 * j + 1) := by
  induction b with
  | zero => simp [maskReduceAAAA, avxLanes]
  | succ b ih =>
    have h8 : 8 * (b + 1) = 8 * b + 8 := by ring
    rw [h8, Finset.sum_range_add, ← ih]
    simp only [maskReduceAAAA, avxLanes_succ]
    rw [Finset.sum_add_distrib]
    congr 1
    apply Finset.sum_congr rfl
    intro l _
    have e : 2 * (8 * b + l) + 1 = 16 * b + (2 * l + 1) := by ring
    rw [e]

/-- The shared scalar cleanup loop, in closed form. -/
theorem cleanupLoop_eq (xf bh : ℕ → ℚ) :
    ∀ (s i : ℕ) (w : ℚ × ℚ),
      cleanupLoop xf bh i s w =
        (w.1 + ∑ j ∈ Finset.range s, xf (i + 2*j) * bh (i + 2*j),
         w.2 + ∑ j ∈ Finset.range s, xf (i + 2*j + 1) * bh (i + 2*j + 1)) := by
  intro s
  induction s with
  | zero => intro i w; simp [cleanupLoop]
  | succ s ih =>
    intro i w
    rw [cleanupLoop, ih]
    have e1 : ∑ j ∈ Finset.range s, xf (i + 2 + 2*j) * bh (i + 2 + 2*j)
        = ∑ j ∈ Finset.range s, xf (i + 2*(j+1)) * bh (i + 2*(j+1)) := by
      apply Finset.sum_congr rfl
      intro j _
      have e : i + 2 + 2*j = i + 2*(j+1) := by ring
      rw [e]
    have e2 : ∑ j ∈ Finset.range s, xf (i + 2 + 2*j + 1) * bh (i + 2 + 2*j + 1)
        = ∑ j ∈ Finset.range s, xf (i + 2*(j+1) + 1) * bh (i + 2*(j+1) + 1) := by
      apply Finset.sum_congr rfl
      intro j _
      have e : i + 2 + 2*j + 1 = i + 2*(j+1) + 1 := by ring
      rw [e]
    simp only [Prod.mk.injEq]
    constructor
    · rw [e1, Finset.sum_range_succ']
      have e : i + 2*0 = i := by ring
      rw [e]; ring
    · rw [e2, Finset.sum_range_succ']
      have e : i + 2*0 + 1 = i + 1 := by ring
      rw [e]; ring

/-- Blocked accumulation over `B` 16-wide blocks, masked reduction, then the
scalar cleanup of the rest: together they sum every even-index and every
odd-index product below `n2`, whenever the blocked part covers at most `n2`
and `n2` is even. -/
theorem kernel_general (xf bh : ℕ → ℚ) (B n2 : ℕ) (hB : 16 * B ≤ n2)
    (h2 : 2 ∣ n2) :
    cleanupLoop xf bh (16 * B) ((n2 - 16 * B) / 2)
        (maskReduce5555 (avxLanes xf bh B), maskReduceAAAA (avxLanes xf bh B)) =
      (∑ j ∈ Finset.range (n2 / 2), xf (2 * j) * bh (2 * j),
       ∑ j ∈ Finset.range (n2 / 2), xf (2 * j + 1) * bh (2 * j + 1)) := by
  rw [cleanupLoop_eq, maskReduce5555_avxLanes, maskReduceAAAA_avxLanes]
  have e1 : ∑ j ∈ Finset.range ((n2 - 16 * B) / 2),
        xf (16 * B + 2 * j) * bh (16 * B + 2 * j)
      = ∑ j ∈ Finset.range ((n2 - 16 * B) / 2),
        xf (2 * (8 * B + j)) * bh (2 * (8 * B + j)) := by
    apply Finset.sum_congr rfl
    intro j _
    have e : 16 * B + 2 * j = 2 * (8 * B + j) := by ring
    rw [e]
  have e2 : ∑ j ∈ Finset.range ((n2 - 16 * B) / 2),
        xf (16 * B + 2 * j + 1) * bh (16 * B + 2 * j + 1)
      = ∑ j ∈ Finset.range ((n2 - 16 * B) / 2),
        xf (2 * (8 * B + j) + 1) * bh (2 * (8 * B + j) + 1) := by
    apply Finset.sum_congr rfl
    intro j _
    have e : 16 * B + 2 * j + 1 = 2 * (8 * B + j) + 1 := by ring
    rw [e]
  have hn : n2 / 2 = 8 * B + (n2 - 16 * B) / 2 := by omega
  rw [e1, e2, hn, Finset.sum_range_add, Finset.sum_range_add]

/-- The narrow kernel, evaluated: success status, and the componentwise sums
of `x[2j]*h[2j]` and `x[2j+1]*h[2j+1]` over the flattened arrays. -/
theorem execute_avx512f_eval (q : dotprod_crcf_s) (x : ℕ → ℚ × ℚ) :
    dotprod_crcf_execute_avx512f q x =
      (LIQUID_OK,
        (∑ j ∈ Finset.range q.n, xflat x (2 * j) * bget q (2 * j),
         ∑ j ∈ Finset.range q.n, xflat x (2 * j + 1) * bget q (2 * j + 1))) := by
  unfold dotprod_crcf_execute_avx512f
  simp only [Nat.shiftRight_eq_div_pow, Nat.shiftLeft_eq]
  have e16 : (2 : ℕ) ^ 4 = 16 := by norm_num
  rw [e16]
  have et : 2 * q.n / 16 * 16 = 16 * (2 * q.n / 16) := by ring
  have eB : 2 * q.n / 16 * 16 / 16 = 2 * q.n / 16 := by omega
  rw [eB, et, kernel_general (xflat x) (bget q) (2 * q.n / 16) (2 * q.n)
    (by omega) (by omega)]
  have en : 2 * q.n / 2 = q.n := by omega
  rw [en]

/-- The wide kernel, evaluated: the unrolled loop is four narrow iterations
per pass, so the same componentwise sums come out. -/
theorem execute_avx512f4_eval (q : dotprod_crcf_s) (x : ℕ → ℚ × ℚ) :
    dotprod_crcf_execute_avx512f4 q x =
      (LIQUID_OK,
        (∑ j ∈ Finset.range q.n, xflat x (2 * j) * bget q (2 * j),
         ∑ j ∈ Finset.range q.n, xflat x (2 * j + 1) * bget q (2 * j + 1))) := by
  unfold dotprod_crcf_execute_avx512f4
  simp only [Nat.shiftRight_eq_div_pow, Nat.shiftLeft_eq]
  have e64 : (2 : ℕ) ^ 6 = 64 := by norm_num
  have e16 : (2 : ℕ) ^ 4 = 16 := by norm_num
  rw [e64, e16]
  have eB : 2 * q.n / 64 * 16 / 16 = 2 * q.n / 64 := by omega
  rw [eB]
  have hlanes : avx4Lanes (xflat x) (bget q) (2 * q.n / 64)
      = avxLanes (xflat x) (bget q) (4 * (2 * q.n / 64)) := by
    funext l
    exact avx4Lanes_eq_avxLanes (xflat x) (bget q) (2 * q.n / 64) l
  rw [hlanes]
  have er : 4 * (2 * q.n / 64 * 16) = 16 * (4 * (2 * q.n / 64)) := by ring
  rw [er, kernel_general (xflat x) (bget q) (4 * (2 * q.n / 64)) (2 * q.n)
    (by omega) (by omega)]
  have en : 2 * q.n / 2 = q.n := by omega
  rw [en]

/-- Reading the buffer of a created object at the two halves of pair `k`
gives the coefficient the create loop wrote there. -/
theorem bget_create_opt (h : ℕ → ℚ) (n : ℕ) (rev : Bool) (k : ℕ) (hk : k < n) :
    bget (dotprod_crcf_create_opt h n rev) (2 * k)
        = h (if rev then n - k - 1 else k) ∧
      bget (dotprod_crcf_create_opt h n rev) (2 * k + 1)
        = h (if rev then n - k - 1 else k) :=
  coefBuild_getD (fun i => h (if rev then n - i - 1 else i)) n k hk

/-- Over exact arithmetic the wide kernel returns exactly what the narrow
kernel returns, on any object and input. -/
theorem execute_avx512f4_eq_avx512f (q : dotprod_crcf_s) (x : ℕ → ℚ × ℚ) :
    dotprod_crcf_execute_avx512f4 q x = dotprod_crcf_execute_avx512f q x := by
  rw [execute_avx512f_eval, execute_avx512f4_eval]

/-- The dispatcher, evaluated: whichever kernel is selected, the result is
the sums of even-index and odd-index flat products. -/
theorem execute_eval (q : dotprod_crcf_s) (x : ℕ → ℚ × ℚ) :
    dotprod_crcf_execute q x =
      (LIQUID_OK,
        (∑ j ∈ Finset.range q.n, xflat x (2 * j) * bget q (2 * j),
         ∑ j ∈ Finset.range q.n, xflat x (2 * j + 1) * bget q (2 * j + 1))) := by
  unfold dotprod_crcf_execute
  split
  · exact execute_avx512f_eval q x
  · exact execute_avx512f4_eval q x

/-- The narrow kernel on an object created by `create_opt` computes the
scalar reference on the effective (optionally reversed) coefficients. -/
theorem execute_avx512f_create_opt (h : ℕ → ℚ) (n : ℕ) (rev : Bool)
    (x : ℕ → ℚ × ℚ) :
    dotprod_crcf_execute_avx512f (dotprod_crcf_create_opt h n rev) x =
      dotprod_crcf_run (fun i => h (if rev then n - i - 1 else i)) x n := by
  rw [execute_avx512f_eval, dotprod_crcf_run_eq]
  have en : (dotprod_crcf_create_opt h n rev).n = n := rfl
  rw [en]
  simp only [Prod.mk.injEq, true_and]
  constructor
  · apply Finset.sum_congr rfl
    intro j hj
    rw [xflat_even, (bget_create_opt h n rev j (Finset.mem_range.mp hj)).1, mul_comm]
  · apply Finset.sum_congr rfl
    intro j hj
    rw [xflat_odd, (bget_create_opt h n rev j (Finset.mem_range.mp hj)).2, mul_comm]

/-- The main loop of `dotprod_crcf_run4`, in closed form. -/
theorem run4Blocks_eq (h : ℕ → ℚ) (x : ℕ → ℚ × ℚ) (b : ℕ) :
    run4Blocks h x b =
      (∑ i ∈ Finset.range (4 * b), h i * (x i).1,
       ∑ i ∈ Finset.range (4 * b), h i * (x i).2) := by
  induction b with
  | zero => simp [run4Blocks]
  | succ b ih =>
    simp only [run4Blocks, ih]
    have e4 : 4 * (b + 1) = 4 * b + 4 := by ring
    rw [e4, Finset.sum_range_add, Finset.sum_range_add]
    simp only [Finset.sum_range_succ, Finset.sum_range_zero, Prod.mk.injEq,
      add_zero, zero_add]
    constructor <;> ring

/-- The cleanup loop of `dotprod_crcf_run4`, in closed form. -/
theorem runTail_eq (h : ℕ → ℚ) (x : ℕ → ℚ × ℚ) :
    ∀ (s i : ℕ) (r : ℚ × ℚ),
      runTail h x i s r =
        (r.1 + ∑ j ∈ Finset.range s, h (i + j) * (x (i + j)).1,
         r.2 + ∑ j ∈ Finset.range s, h (i + j) * (x (i + j)).2) := by
  intro s
  induction s with
  | zero => intro i r; simp [runTail]
  | succ s ih =>
    intro i r
    rw [runTail, ih]
    have e1 : ∑ j ∈ Finset.range s, h (i + 1 + j) * (x (i + 1 + j)).1
        = ∑ j ∈ Finset.range s, h (i + (j + 1)) * (x (i + (j + 1))).1 := by
      apply Finset.sum_congr rfl
      intro j _
      have e : i + 1 + j = i + (j + 1) := by ring
      rw [e]
    have e2 : ∑ j ∈ Finset.range s, h (i + 1 + j) * (x (i + 1 + j)).2
        = ∑ j ∈ Finset.range s, h (i + (j + 1)) * (x (i + (j + 1))).2 := by
      apply Finset.sum_congr rfl
      intro j _
      have e : i + 1 + j = i + (j + 1) := by ring
      rw [e]
    simp only [Prod.mk.injEq]
    constructor
    · rw [e1, Finset.sum_range_succ']
      have e : i + 0 = i := by ring
      rw [e]; ring
    · rw [e2, Finset.sum_range_succ']
      have e : i + 0 = i := by ring
      rw [e]; ring

/-! ### The claims -/

/-- C1: For every coefficient array `h` of length `n` and every complex
sample array `x`, both the narrow kernel `dotprod_crcf_execute_avx512f` and
the wide kernel `dotprod_crcf_execute_avx512f4`, run on the object created
from `h` (with its duplicated buffer), produce exactly the value of the
scalar reference `dotprod_crcf_run` on the original un-duplicated
coefficients and `x` — over exact arithmetic. -/
theorem claim_C1 (h : ℕ → ℚ) (n : ℕ) (x : ℕ → ℚ × ℚ) :
    dotprod_crcf_execute_avx512f (dotprod_crcf_create h n) x =
        dotprod_crcf_run h x n ∧
      dotprod_crcf_execute_avx512f4 (dotprod_crcf_create h n) x =
        dotprod_crcf_run h x n := by
  have h1 : dotprod_crcf_execute_avx512f (dotprod_crcf_create h n) x =
      dotprod_crcf_run h x n := by
    have e := execute_avx512f_create_opt h n false x
    simpa [dotprod_crcf_create] using e
  exact ⟨h1, by rw [execute_avx512f4_eq_avx512f]; exact h1⟩

/-- C3: The dispatcher `dotprod_crcf_execute` selects the narrow kernel
exactly when `q.n < 128` and the wide kernel otherwise, and over exact
arithmetic the selection never changes the result: the dispatcher's output
equals both kernels' outputs on every object and input. -/
theorem claim_C3 (q : dotprod_crcf_s) (x : ℕ → ℚ × ℚ) :
    dotprod_crcf_execute q x =
        (if q.n < 128 then dotprod_crcf_execute_avx512f q x
         else dotprod_crcf_execute_avx512f4 q x) ∧
      dotprod_crcf_execute q x = dotprod_crcf_execute_avx512f q x ∧
      dotprod_crcf_execute q x = dotprod_crcf_execute_avx512f4 q x := by
  refine ⟨rfl, ?_, ?_⟩
  · rw [execute_eval, execute_avx512f_eval]
  · rw [execute_eval, execute_avx512f4_eval]

/-- C5: The unrolled-by-4 scalar variant `dotprod_crcf_run4` produces, over
exact arithmetic, the same result (status and value) as the plain sequential
scalar loop `dotprod_crcf_run`, for every `h`, `x`, `n`. -/
theorem claim_C5 (h : ℕ → ℚ) (x : ℕ → ℚ × ℚ) (n : ℕ) :
    dotprod_crcf_run4 h x n = dotprod_crcf_run h x n := by
  unfold dotprod_crcf_run4
  simp only [Nat.shiftRight_eq_div_pow, Nat.shiftLeft_eq]
  have e4 : (2 : ℕ) ^ 2 = 4 := by norm_num
  rw [e4]
  have eB : n / 4 * 4 / 4 = n / 4 := by omega
  rw [eB, runTail_eq, run4Blocks_eq, dotprod_crcf_run_eq]
  have e1 : 4 * (n / 4) = n / 4 * 4 := by ring
  have en : n = n / 4 * 4 + (n - n / 4 * 4) := by omega
  simp only [Prod.mk.injEq, true_and]
  constructor
  · conv_rhs => rw [en]
    rw [Finset.sum_range_add, e1]
  · conv_rhs => rw [en]
    rw [Finset.sum_range_add, e1]

/-- C6: Executing an object created by `dotprod_crcf_create_rev h n` on any
samples `x` yields the same result as executing an object created forward
from the reversed coefficient array `i ↦ h (n-1-i)`; in fact the two
created objects are identical. -/
theorem claim_C6 (h : ℕ → ℚ) (n : ℕ) (x : ℕ → ℚ × ℚ) :
    dotprod_crcf_execute (dotprod_crcf_create_rev h n) x =
      dotprod_crcf_execute (dotprod_crcf_create (fun i => h (n - 1 - i)) n) x := by
  have e : dotprod_crcf_create_rev h n =
      dotprod_crcf_create (fun i => h (n - 1 - i)) n := by
    unfold dotprod_crcf_create_rev dotprod_crcf_create dotprod_crcf_create_opt
    simp only [dotprod_crcf_s.mk.injEq, if_true, if_false, Bool.false_eq_true,
      true_and]
    congr 1
    funext i
    congr 1
    omega
  rw [e]

/-- C7: On an object with `n = 0`, the dispatcher and both kernels return
status `LIQUID_OK` and the value `0 + 0i` — the blocked and remainder loops
run zero iterations (no element of `x` or of the buffer enters the result)
and the masked reductions of the zero accumulator give zero. -/
theorem claim_C7 (q : dotprod_crcf_s) (x : ℕ → ℚ × ℚ) (h0 : q.n = 0) :
    dotprod_crcf_execute q x = (LIQUID_OK, (0, 0)) ∧
      dotprod_crcf_execute_avx512f q x = (LIQUID_OK, (0, 0)) ∧
      dotprod_crcf_execute_avx512f4 q x = (LIQUID_OK, (0, 0)) := by
  refine ⟨?_, ?_, ?_⟩
  · rw [execute_eval, h0]; simp
  · rw [execute_avx512f_eval, h0]; simp
  · rw [execute_avx512f4_eval, h0]; simp

/-- Witness for C7 at the concrete empty object and an all-zero sample
stream. -/
theorem claim_C7_witness :
    (dotprod_crcf_s.mk 0 []).n = 0 ∧
      dotprod_crcf_execute ⟨0, []⟩ (fun _ => ((0 : ℚ), (0 : ℚ))) =
        (LIQUID_OK, (0, 0)) ∧
      dotprod_crcf_execute_avx512f ⟨0, []⟩ (fun _ => ((0 : ℚ), (0 : ℚ))) =
        (LIQUID_OK, (0, 0)) ∧
      dotprod_crcf_execute_avx512f4 ⟨0, []⟩ (fun _ => ((0 : ℚ), (0 : ℚ))) =
        (LIQUID_OK, (0, 0)) :=
  ⟨rfl, claim_C7 ⟨0, []⟩ (fun _ => ((0 : ℚ), (0 : ℚ))) rfl⟩

/-- C2: After `create` (forward, `rev = false`) or `create_rev` (reversed,
`rev = true`) from a coefficient array `h` of length `n`, the owned buffer
has `2n` entries and satisfies `buffer[2k] = buffer[2k+1] = h[k']` for all
`k < n`, with `k' = k` forward and `k' = n-1-k` reversed.  (In this
embedding objects are immutable values: only `destroy`/`recreate` replace
them, and the execute paths are read-only — see the frame theorem for
C10.) -/
theorem claim_C2 (h : ℕ → ℚ) (n : ℕ) (rev : Bool) (k : ℕ) (hk : k < n) :
    bget (dotprod_crcf_create_opt h n rev) (2 * k)
        = h (if rev then n - 1 - k else k) ∧
      bget (dotprod_crcf_create_opt h n rev) (2 * k + 1)
        = h (if rev then n - 1 - k else k) ∧
      (dotprod_crcf_create_opt h n rev).h.length = 2 * n := by
  have e : (if rev then n - 1 - k else k) = (if rev then n - k - 1 else k) := by
    cases rev
    · simp
    · simp
      omega
  rw [e]
  refine ⟨(bget_create_opt h n rev k hk).1, (bget_create_opt h n rev k hk).2, ?_⟩
  exact coefBuild_length _ n

/-- Witness for C2: reversed creation from `h = [10, 20]` (modelled as
`i ↦ 10*(i+1)`), pair `k = 0` holds `h[1] = 20` twice. -/
theorem claim_C2_witness :
    0 < 2 ∧
      (bget (dotprod_crcf_create_opt (fun i : ℕ => (10 : ℚ) * (i + 1)) 2 true) (2 * 0)
          = (fun i : ℕ => (10 : ℚ) * (i + 1)) (if true then 2 - 1 - 0 else 0) ∧
        bget (dotprod_crcf_create_opt (fun i : ℕ => (10 : ℚ) * (i + 1)) 2 true) (2 * 0 + 1)
          = (fun i : ℕ => (10 : ℚ) * (i + 1)) (if true then 2 - 1 - 0 else 0) ∧
        (dotprod_crcf_create_opt (fun i : ℕ => (10 : ℚ) * (i + 1)) 2 true).h.length
          = 2 * 2) :=
  ⟨by norm_num, claim_C2 (fun i : ℕ => (10 : ℚ) * (i + 1)) 2 true 0 (by norm_num)⟩

/-- C4 (bug evidence): under `_MSC_VER` the loop body of `dotprod_crcf_run`
is the assignment `r = _FCmulcr(_x[i], _h[i])` instead of an accumulation,
so with `h = [1,1]` and `x = [(1,0), (1,0)]` it returns `(1, 0)` — the last
term only — while the portable branch returns the claimed sum `(2, 0)`. -/
theorem claim_C4_msvc_bug :
    dotprod_crcf_run_msvc (fun _ => (1 : ℚ)) (fun _ => ((1 : ℚ), (0 : ℚ))) 2
        = (LIQUID_OK, (1, 0)) ∧
      dotprod_crcf_run (fun _ => (1 : ℚ)) (fun _ => ((1 : ℚ), (0 : ℚ))) 2
        = (LIQUID_OK, (2, 0)) ∧
      ((1 : ℚ), (0 : ℚ)) ≠ ((2 : ℚ), (0 : ℚ)) := by
  refine ⟨?_, ?_, by norm_num⟩
  · norm_num [dotprod_crcf_run_msvc, List.range_succ]
  · norm_num [dotprod_crcf_run, List.range_succ]

/-- C8: `dotprod_crcf_copy` fails with the invalid-argument error exactly on
a NULL handle; on a valid handle it returns a fresh object with the same
`n`, whose buffer agrees with the source on all `2n` coefficient slots, and
whose execute results are identical to the original's on every input. -/
theorem claim_C8 (q : dotprod_crcf_s) (j : ℕ) (x : ℕ → ℚ × ℚ) :
    dotprod_crcf_copy none =
        Except.error "dotprod_crcf_copy().avx512f, object cannot be NULL" ∧
      dotprod_crcf_copy (some q) = Except.ok (dotprod_crcf_copy_obj q) ∧
      (dotprod_crcf_copy_obj q).n = q.n ∧
      (j < 2 * q.n → bget (dotprod_crcf_copy_obj q) j = bget q j) ∧
      dotprod_crcf_execute (dotprod_crcf_copy_obj q) x =
        dotprod_crcf_execute q x := by
  have hbget : ∀ m, m < 2 * q.n → bget (dotprod_crcf_copy_obj q) m = bget q m := by
    intro m hm
    simp [bget, dotprod_crcf_copy_obj, List.getD_eq_getElem?_getD,
      List.getElem?_take, hm]
  refine ⟨rfl, rfl, rfl, hbget j, ?_⟩
  rw [execute_eval, execute_eval]
  have en : (dotprod_crcf_copy_obj q).n = q.n := rfl
  rw [en]
  simp only [Prod.mk.injEq, true_and]
  constructor
  · apply Finset.sum_congr rfl
    intro m hm
    have hm' := Finset.mem_range.mp hm
    rw [hbget (2 * m) (by omega)]
  · apply Finset.sum_congr rfl
    intro m hm
    have hm' := Finset.mem_range.mp hm
    rw [hbget (2 * m + 1) (by omega)]

/-- Witness for C8 at the concrete object `n = 1`, buffer `[5, 5]`, slot 0,
constant samples `(1, 2)`. -/
theorem claim_C8_witness :
    (0 : ℕ) < 2 * (dotprod_crcf_s.mk 1 [5, 5]).n ∧
      bget (dotprod_crcf_copy_obj ⟨1, [5, 5]⟩) 0 = bget ⟨1, [5, 5]⟩ 0 ∧
      dotprod_crcf_execute (dotprod_crcf_copy_obj ⟨1, [5, 5]⟩)
          (fun _ => ((1 : ℚ), (2 : ℚ))) =
        dotprod_crcf_execute ⟨1, [5, 5]⟩ (fun _ => ((1 : ℚ), (2 : ℚ))) :=
  ⟨by norm_num,
   (claim_C8 ⟨1, [5, 5]⟩ 0 (fun _ => ((1 : ℚ), (2 : ℚ)))).2.2.2.1 (by norm_num),
   (claim_C8 ⟨1, [5, 5]⟩ 0 (fun _ => ((1 : ℚ), (2 : ℚ)))).2.2.2.2⟩

/-- C9 counterexample: when the record allocation fails (`objAlloc = false`,
here at `h = 0`-coefficients, `n = 1`, forward), `create_opt` does not
propagate an allocation error — `q->n = _n` stores through the null pointer
(`nullDeref`), and likewise when the buffer allocation fails with `n > 0`. -/
theorem claim_C9_counterexample :
    dotprod_crcf_create_opt_alloc false true (fun _ => (0 : ℚ)) 1 false
        = CreateOutcome.nullDeref ∧
      (dotprod_crcf_create_opt_alloc false true (fun _ => (0 : ℚ)) 1 false).isAllocError
        = false ∧
      dotprod_crcf_create_opt_alloc true false (fun _ => (0 : ℚ)) 1 false
        = CreateOutcome.nullDeref ∧
      (dotprod_crcf_create_opt_alloc true false (fun _ => (0 : ℚ)) 1 false).isAllocError
        = false :=
  ⟨rfl, rfl, rfl, rfl⟩

/-- C9 as amended: `create_opt` performs no allocation check at all.  A
failed record allocation always ends in a null-pointer store; a failed
buffer allocation ends in a null-pointer store whenever `n > 0`; no input
ever yields a propagated allocation error; and when both allocations
succeed the created object is returned. -/
theorem claim_C9_amended (objAlloc bufAlloc : Bool) (h : ℕ → ℚ) (n : ℕ)
    (rev : Bool) :
    (objAlloc = false →
        dotprod_crcf_create_opt_alloc objAlloc bufAlloc h n rev
          = CreateOutcome.nullDeref) ∧
      (bufAlloc = false → 0 < n →
        dotprod_crcf_create_opt_alloc true bufAlloc h n rev
          = CreateOutcome.nullDeref) ∧
      (dotprod_crcf_create_opt_alloc objAlloc bufAlloc h n rev).isAllocError
        = false ∧
      dotprod_crcf_create_opt_alloc true true h n rev
        = CreateOutcome.ok (dotprod_crcf_create_opt h n rev) := by
  refine ⟨?_, ?_, ?_, ?_⟩
  · intro ho
    subst ho
    rfl
  · intro hb hn
    subst hb
    simp [dotprod_crcf_create_opt_alloc, hn]
  · unfold dotprod_crcf_create_opt_alloc
    cases objAlloc
    · rfl
    · cases bufAlloc
      · rcases Nat.eq_zero_or_pos n with h0 | h0
        · subst h0
          simp [CreateOutcome.isAllocError]
        · simp [h0, CreateOutcome.isAllocError]
      · simp [CreateOutcome.isAllocError]
  · simp [dotprod_crcf_create_opt_alloc]

/-- Witness for C9 (amended) at `n = 3`, reversed, constant coefficients. -/
theorem claim_C9_amended_witness :
    dotprod_crcf_create_opt_alloc false true (fun _ => (1 : ℚ)) 3 true
        = CreateOutcome.nullDeref ∧
      dotprod_crcf_create_opt_alloc true false (fun _ => (1 : ℚ)) 3 true
        = CreateOutcome.nullDeref ∧
      (dotprod_crcf_create_opt_alloc false true (fun _ => (1 : ℚ)) 3 true).isAllocError
        = false ∧
      dotprod_crcf_create_opt_alloc true true (fun _ => (1 : ℚ)) 3 true
        = CreateOutcome.ok (dotprod_crcf_create_opt (fun _ => (1 : ℚ)) 3 true) :=
  ⟨(claim_C9_amended false true (fun _ => (1 : ℚ)) 3 true).1 rfl,
   (claim_C9_amended true false (fun _ => (1 : ℚ)) 3 true).2.1 rfl (by norm_num),
   (claim_C9_amended false true (fun _ => (1 : ℚ)) 3 true).2.2.1,
   (claim_C9_amended true true (fun _ => (1 : ℚ)) 3 true).2.2.2⟩

/-- C10: an execute call leaves the object (its `n` and its whole buffer)
and the sample array unchanged.  In the C bodies of both kernels the only
memory store is the final `*_y = ...` (`v/h/s/sum` and `w[2]` are locals);
with those effects made explicit, the post-state keeps `q` and `x`
verbatim. -/
theorem claim_C10 (m : DotprodMem) :
    (dotprod_crcf_execute_avx512f_mem m).1.q = m.q ∧
      (dotprod_crcf_execute_avx512f_mem m).1.x = m.x ∧
      (dotprod_crcf_execute_avx512f_mem m).1.q.n = m.q.n ∧
      (dotprod_crcf_execute_avx512f_mem m).1.q.h = m.q.h ∧
      (dotprod_crcf_execute_avx512f4_mem m).1.q = m.q ∧
      (dotprod_crcf_execute_avx512f4_mem m).1.x = m.x :=
  ⟨rfl, rfl, rfl, rfl, rfl, rfl⟩
